import Mathlib

/-!
Shallow embedding of the session multiplexer in src/src/SocketHandler.ts and
the token check in src/src/socketTokens.ts.

Modelling decisions, each traceable to the source:
* WebSocket handles are natural numbers; a JS Map is an insertion-ordered
  association list with mapGet / mapSet / mapDelete mirroring get / set /
  delete of the Map class.
* External libraries are abstracted at their observed boundary: the
  jwtVerify call of jose becomes the boolean field sigValid of a Token (signature and
  expiry check), while the audience comparison of verifySocketToken is
  embedded literally from socketTokens.ts line 35.  The safeParse of zod for the
  server schema becomes the function serverParse of the configuration; for
  the client schema, the outcome of JSON.parse plus safeParse on an inbound
  frame is encoded in the InFrame type (garbage: JSON.parse throws; invalid:
  parses but fails the schema; valid: yields a client message).
* ws.send calls append to the trace field sent; invocations of the
  user-supplied connect and disconnect hooks, and of a registered message
  handler, append ghost records to the trace field events.  Message handlers
  are modelled as pure outcomes (normal return, throw of an Error with a
  message, or throw of a non-Error value), matching how onClientMessage in
  the source only observes the outcome of the await.
-/

set_option maxHeartbeats 1000000

namespace SocketHandler

/-- Status field of a session record: the string union pending | ready |
closed from SocketHandler.ts. -/
inductive Status where
  | pending
  | ready
  | closed
deriving DecidableEq, Repr

/-- The SocketSessionInfo record of SocketHandler.ts. -/
structure SocketSessionInfo where
  audience : String
  subject : String
  socketId : String
  status : Status
deriving DecidableEq, Repr

/-- Lookup in an insertion-ordered association list: Map.prototype.get. -/
def mapGet {α β : Type} [DecidableEq α] : List (α × β) → α → Option β
  | [], _ => none
  | (k, v) :: rest, x => if k = x then some v else mapGet rest x

/-- Map.prototype.set: overwrite the existing entry in place, else append. -/
def mapSet {α β : Type} [DecidableEq α] : List (α × β) → α → β → List (α × β)
  | [], k, v => [(k, v)]
  | (k', v') :: rest, k, v =>
    if k' = k then (k, v) :: rest else (k', v') :: mapSet rest k v

/-- Map.prototype.delete: remove the entry with the given key. -/
def mapDelete {α β : Type} [DecidableEq α] : List (α × β) → α → List (α × β)
  | [], _ => []
  | (k', v) :: rest, k =>
    if k' = k then mapDelete rest k else (k', v) :: mapDelete rest k

theorem mapGet_set {α β : Type} [DecidableEq α] (m : List (α × β)) (k x : α) (v : β) :
    mapGet (mapSet m k v) x = if k = x then some v else mapGet m x := by
  induction m with
  | nil => simp [mapGet, mapSet]
  | cons p rest ih =>
    obtain ⟨k', v'⟩ := p
    by_cases hk : k' = k
    · subst hk
      by_cases hx : k' = x <;> simp [mapGet, mapSet, hx]
    · by_cases hx : k' = x
      · subst hx
        have hk2 : ¬k = k' := fun h => hk h.symm
        simp [mapGet, mapSet, hk, hk2]
      · simp [mapGet, mapSet, hk, hx, ih]

theorem mapGet_delete {α β : Type} [DecidableEq α] (m : List (α × β)) (k x : α) :
    mapGet (mapDelete m k) x = if k = x then none else mapGet m x := by
  induction m with
  | nil => simp [mapGet, mapDelete]
  | cons p rest ih =>
    obtain ⟨k', v'⟩ := p
    by_cases hk : k' = k
    · subst hk
      by_cases hx : k' = x
      · subst hx
        simpa [mapDelete] using ih
      · simp [mapGet, mapDelete, hx, ih]
    · by_cases hx : k' = x
      · subst hx
        have hk2 : ¬k = k' := fun h => hk h.symm
        simp [mapGet, mapDelete, hk, hk2]
      · simp [mapGet, mapDelete, hk, hx, ih]

theorem mem_mapSet {α β : Type} [DecidableEq α] {m : List (α × β)} {k : α} {v : β}
    {p : α × β} (hp : p ∈ mapSet m k v) : p = (k, v) ∨ p ∈ m := by
  induction m with
  | nil => simpa [mapSet] using hp
  | cons q rest ih =>
    obtain ⟨k', v'⟩ := q
    by_cases hk : k' = k
    · simp only [mapSet, hk, if_pos rfl] at hp
      rcases List.mem_cons.mp hp with h | h
      · exact Or.inl h
      · exact Or.inr (List.mem_cons_of_mem _ h)
    · simp only [mapSet, if_neg hk] at hp
      rcases List.mem_cons.mp hp with h | h
      · exact Or.inr (List.mem_cons.mpr (Or.inl h))
      · rcases ih h with h' | h'
        · exact Or.inl h'
        · exact Or.inr (List.mem_cons_of_mem _ h')

theorem mem_mapDelete {α β : Type} [DecidableEq α] {m : List (α × β)} {k : α}
    {p : α × β} (hp : p ∈ mapDelete m k) : p ∈ m := by
  induction m with
  | nil => simpa [mapDelete] using hp
  | cons q rest ih =>
    obtain ⟨k', v'⟩ := q
    by_cases hk : k' = k
    · simp only [mapDelete, if_pos hk] at hp
      exact List.mem_cons_of_mem _ (ih hp)
    · simp only [mapDelete, if_neg hk] at hp
      rcases List.mem_cons.mp hp with h | h
      · exact List.mem_cons.mpr (Or.inl h)
      · exact List.mem_cons_of_mem _ (ih h)

theorem mapGet_mem {α β : Type} [DecidableEq α] {m : List (α × β)} {k : α} {v : β}
    (h : mapGet m k = some v) : (k, v) ∈ m := by
  induction m with
  | nil => simp [mapGet] at h
  | cons p rest ih =>
    obtain ⟨k', v'⟩ := p
    by_cases hk : k' = k
    · subst hk
      simp [mapGet] at h
      simp [h]
    · simp only [mapGet, if_neg hk] at h
      exact List.mem_cons_of_mem _ (ih h)

/-- String.prototype.toLowerCase over the character list (the locale-free
lowering used on the Upgrade header). -/
def lowercase (s : String) : String := ⟨s.data.map Char.toLower⟩

/-- Payload of a verified socket token: the sub and aud claims returned by
verifySocketToken in socketTokens.ts. -/
structure TokenPayload where
  sub : String
  aud : String
deriving DecidableEq, Repr

/-- A capability token as seen at the verification boundary.  The field
sigValid abstracts the external jwtVerify call of jose (signature and expiry
check against the secret); the payload carries the sub and aud claims. -/
structure Token where
  sigValid : Bool
  payload : TokenPayload
deriving DecidableEq, Repr

/-- Embedding of verifySocketToken (socketTokens.ts lines 25-39): jwtVerify
throws when the signature or expiry check fails, then the audience claim is
compared with the expected audience and a mismatch throws Invalid audience. -/
def verifySocketToken (token : Token) (audience : String) : Except String TokenPayload :=
  if token.sigValid = false then Except.error "jwt verification failed"
  else if token.payload.aud ≠ audience then Except.error "Invalid audience"
  else Except.ok token.payload

/-- One frame written to a websocket by ws.send in SocketHandler.ts: either a
stringified server message, the ack reply of onClientMessage, or an error
reply carrying a message and a responseTo field (none encodes null). -/
inductive Out (SMsg : Type) where
  | server (m : SMsg)
  | ack (responseTo : String)
  | err (message : String) (responseTo : Option String)
deriving DecidableEq, Repr

/-- Ghost record of the invocation of a user-supplied callback: the connect
and disconnect hooks of the configuration, and the dispatch of a registered
message handler keyed by the message type. -/
inductive Event where
  | connect (info : SocketSessionInfo)
  | disconnect (info : SocketSessionInfo) (error : Option String)
  | handlerInvoked (msgType : String)
deriving DecidableEq, Repr

/-- Outcome of awaiting an application message handler: normal completion, a
thrown Error carrying a message, or a thrown non-Error value. -/
inductive HandlerResult where
  | ok
  | throwErr (message : String)
  | throwNonErr
deriving DecidableEq, Repr

/-- Outcome of JSON.parse plus clientMessageShape.safeParse on one inbound
frame, as observed by onMessage: garbage means JSON.parse throws, invalid
means the body parses but fails the schema, valid carries the parsed client
message. -/
inductive InFrame (CMsg : Type) where
  | garbage
  | invalid
  | valid (msg : CMsg)
deriving DecidableEq, Repr

/-- The SocketHandlerConfig as the multiplexer observes it: serverParse is
serverMessageShape.safeParse (none on failure, the parsed data on success),
msgType and msgId project the type and messageId fields of a client message,
and messageHandlers is the handler table keyed by message type. -/
structure Config (SMsg CMsg : Type) where
  serverParse : SMsg → Option SMsg
  msgType : CMsg → String
  msgId : CMsg → String
  messageHandlers : String → Option (CMsg → SocketSessionInfo → HandlerResult)

/-- The SocketHandlerError thrown by send on an outbound validation failure. -/
structure SocketHandlerError where
  message : String
  code : Nat
deriving DecidableEq, Repr

/-- Rejection of the upgrade route: either a SocketHandlerError thrown by the
route handler itself, or the Error propagated out of verifySocketToken. -/
inductive HandshakeError where
  | handlerError (message : String) (code : Nat)
  | authError (message : String)
deriving DecidableEq, Repr

/-- Full state of one SocketHandler instance plus its observable history.
socketInfo and messageBacklogs are the two private Maps; attachments holds
the blob last written by serializeAttachment per accepted socket;
openSockets models which sockets the platform still reports via
getWebSockets; accepted records every socket ever passed to acceptWebSocket;
sent is the append-only trace of ws.send calls; events the append-only trace
of user-callback invocations. -/
structure HState (SMsg : Type) where
  socketInfo : List (Nat × SocketSessionInfo)
  attachments : List (Nat × SocketSessionInfo)
  messageBacklogs : List (String × List SMsg)
  openSockets : List Nat
  accepted : List Nat
  sent : List (Nat × Out SMsg)
  events : List Event
deriving DecidableEq, Repr

/-- The empty state of a freshly constructed handler with no prior sockets. -/
def initState {SMsg : Type} : HState SMsg where
  socketInfo := []
  attachments := []
  messageBacklogs := []
  openSockets := []
  accepted := []
  sent := []
  events := []

variable {SMsg CMsg : Type}

/-- Embedding of the private updateSocketInfo: store the record in the
socketInfo Map and persist it via serializeAttachment. -/
def updateSocketInfo (ws : Nat) (info : SocketSessionInfo) (s : HState SMsg) :
    HState SMsg :=
  { s with
    socketInfo := mapSet s.socketInfo ws info
    attachments := mapSet s.attachments ws info }

/-- Embedding of the upgrade route installed by createHono (SocketHandler.ts
lines 74-117).  The platform-generated fresh websocket handle and the fresh
socketId from crypto.randomUUID are passed in as parameters.  An error value
means the route threw; the state is then untouched, exactly as in the source
where the throws precede every allocation and mutation. -/
def handshakeFetch (actorId : String) (upgradeHeader : Option String)
    (token : Option Token) (freshWs : Nat) (freshSocketId : String)
    (s : HState SMsg) : Except HandshakeError (HState SMsg) :=
  match upgradeHeader with
  | none => Except.error (HandshakeError.handlerError "Expected a WebSocket upgrade request" 400)
  | some h =>
    if lowercase h ≠ "websocket" then
      Except.error (HandshakeError.handlerError "Expected a WebSocket upgrade request" 400)
    else
      match token with
      | none => Except.error (HandshakeError.handlerError "Missing token" 400)
      | some t =>
        match verifySocketToken t actorId with
        | Except.error e => Except.error (HandshakeError.authError e)
        | Except.ok payload =>
          let info : SocketSessionInfo :=
            { audience := payload.aud
              subject := payload.sub
              status := Status.pending
              socketId := freshSocketId }
          let s1 := { s with
            accepted := s.accepted ++ [freshWs]
            openSockets := s.openSockets ++ [freshWs] }
          let s2 := updateSocketInfo freshWs info s1
          Except.ok { s2 with events := s2.events ++ [Event.connect info] }

/-- The skip conditions of the fan-out loop of send (SocketHandler.ts lines
149-154): a session passes when it is not skipped by the to filter and not
skipped by the notTo filter. -/
def sendFilterPasses (to_ notTo : Option (List String)) (subject : String) : Bool :=
  !(match to_ with
    | some l => !(l.contains subject)
    | none => false)
  && !(match notTo with
    | some l => l.contains subject
    | none => false)

/-- One iteration of the fan-out loop of send over a snapshot entry: skip by
filter, else push to the backlog when pending, purge the registry entry when
closed, or send immediately when ready. -/
def sendStep (data : SMsg) (to_ notTo : Option (List String)) (s : HState SMsg)
    (e : Nat × SocketSessionInfo) : HState SMsg :=
  if sendFilterPasses to_ notTo e.2.subject then
    match e.2.status with
    | Status.pending =>
      { s with
        messageBacklogs :=
          mapSet s.messageBacklogs e.2.socketId
            (((mapGet s.messageBacklogs e.2.socketId).getD []) ++ [data]) }
    | Status.closed => { s with socketInfo := mapDelete s.socketInfo e.1 }
    | Status.ready => { s with sent := s.sent ++ [(e.1, Out.server data)] }
  else s

/-- Embedding of send (SocketHandler.ts lines 128-172): validate the message
once against the server schema, throwing a SocketHandlerError on failure,
then fan out over a snapshot of the socketInfo entries. -/
def send (cfg : Config SMsg CMsg) (msg : SMsg) (to_ notTo : Option (List String))
    (s : HState SMsg) : Except SocketHandlerError (HState SMsg) :=
  match cfg.serverParse msg with
  | none =>
    Except.error { message := "Invalid server message shape: ", code := 500 }
  | some data => Except.ok (s.socketInfo.foldl (sendStep data to_ notTo) s)

/-- A send call as the host actor observes it: on a throw the state is
unchanged because send throws before any mutation. -/
def runSend (cfg : Config SMsg CMsg) (msg : SMsg) (to_ notTo : Option (List String))
    (s : HState SMsg) : HState SMsg :=
  match send cfg msg to_ notTo s with
  | Except.ok s' => s'
  | Except.error _ => s

/-- The reply produced by onClientMessage for a dispatched handler outcome:
ack on normal completion, an error frame carrying the thrown message (or the
fallback text for a non-Error throw) with responseTo set to the messageId. -/
def replyFor (r : HandlerResult) (mid : String) : Out SMsg :=
  match r with
  | HandlerResult.ok => Out.ack mid
  | HandlerResult.throwErr m => Out.err m (some mid)
  | HandlerResult.throwNonErr => Out.err "An error occurred" (some mid)

/-- Embedding of the private onClientMessage (SocketHandler.ts lines
244-270): look up the handler for the message type; a missing handler only
logs a warning and the ack is still sent; a present handler is invoked and
its outcome determines the single reply frame. -/
def onClientMessage (cfg : Config SMsg CMsg) (msg : CMsg) (ws : Nat)
    (info : SocketSessionInfo) (s : HState SMsg) : HState SMsg :=
  match cfg.messageHandlers (cfg.msgType msg) with
  | none => { s with sent := s.sent ++ [(ws, Out.ack (cfg.msgId msg))] }
  | some handler =>
    { s with
      events := s.events ++ [Event.handlerInvoked (cfg.msgType msg)]
      sent := s.sent ++ [(ws, replyFor (handler msg info) (cfg.msgId msg))] }

/-- Embedding of onMessage (SocketHandler.ts lines 184-242): drop frames from
untracked sockets; promote a pending session to ready and replay its backlog
before anything else; then branch on the parse outcome of the frame.  Note
that onClientMessage receives the info record read before the promotion,
exactly as in the source. -/
def onMessage (cfg : Config SMsg CMsg) (ws : Nat) (message : InFrame CMsg)
    (s : HState SMsg) : HState SMsg :=
  match mapGet s.socketInfo ws with
  | none => s
  | some info =>
    let s1 :=
      if info.status = Status.pending then
        let s' := updateSocketInfo ws { info with status := Status.ready } s
        { s' with
          sent := s'.sent ++
            ((mapGet s'.messageBacklogs info.socketId).getD []).map
              (fun m => (ws, Out.server m)) }
      else s
    match message with
    | InFrame.garbage =>
      { s1 with sent := s1.sent ++ [(ws, Out.err "Error handling message" none)] }
    | InFrame.invalid =>
      { s1 with sent := s1.sent ++ [(ws, Out.err "Invalid message format" none)] }
    | InFrame.valid msg => onClientMessage cfg msg ws info s1

/-- Embedding of the private onWebSocketCloseOrError (SocketHandler.ts lines
290-297): invoke the disconnect hook when the socket is tracked, then delete
the registry entry.  The removal from openSockets models that the platform
stops reporting a closed or errored socket via getWebSockets. -/
def onWebSocketCloseOrError (ws : Nat) (error : Option String) (s : HState SMsg) :
    HState SMsg :=
  let s1 :=
    match mapGet s.socketInfo ws with
    | some info => { s with events := s.events ++ [Event.disconnect info error] }
    | none => s
  { s1 with
    socketInfo := mapDelete s1.socketInfo ws
    openSockets := s1.openSockets.filter (fun w => w ≠ ws) }

/-- Embedding of onClose (SocketHandler.ts lines 272-280): echo the close and
run the shared teardown with no error. -/
def onClose (ws : Nat) (code : Nat) (reason : String) (wasClean : Bool)
    (s : HState SMsg) : HState SMsg :=
  onWebSocketCloseOrError ws none s

/-- Embedding of onError (SocketHandler.ts lines 282-288): run the shared
teardown with the error, substituting Unknown error for a non-Error value. -/
def onError (ws : Nat) (errMessage : Option String) (s : HState SMsg) : HState SMsg :=
  onWebSocketCloseOrError ws (some (errMessage.getD "Unknown error")) s

/-- Embedding of the constructor rehydration loop (SocketHandler.ts lines
59-72) after a hibernation: the in-memory Maps start empty, then every socket
the platform still reports open has its persisted attachment reinstalled in
socketInfo.  The backlog Map is in-memory only and comes back empty. -/
def constructorRehydrate (s : HState SMsg) : HState SMsg :=
  { s with
    socketInfo :=
      s.openSockets.filterMap
        (fun ws => (mapGet s.attachments ws).map (fun i => (ws, i)))
    messageBacklogs := [] }

/-- One externally triggered operation on a handler instance. -/
inductive Op (SMsg CMsg : Type) where
  | handshake (actorId : String) (upgradeHeader : Option String)
      (token : Option Token) (freshWs : Nat) (freshSocketId : String)
  | message (ws : Nat) (frame : InFrame CMsg)
  | sendMsg (msg : SMsg) (to_ notTo : Option (List String))
  | close (ws : Nat) (code : Nat) (reason : String) (wasClean : Bool)
  | socketError (ws : Nat) (errMessage : Option String)
  | hibernate

/-- Apply one operation.  The guard on handshake encodes that the handle
minted by new WebSocketPair is a fresh object, never one already known to
the instance; a colliding handle is unrepresentable in the source and the
operation is a no-op for it.  A thrown handshake or send leaves the state
unchanged, as the throws precede every mutation in the source. -/
def applyOp (cfg : Config SMsg CMsg) (op : Op SMsg CMsg) (s : HState SMsg) :
    HState SMsg :=
  match op with
  | Op.handshake a u t w sid =>
    if (mapGet s.socketInfo w).isSome || (mapGet s.attachments w).isSome then s
    else
      match handshakeFetch a u t w sid s with
      | Except.ok s' => s'
      | Except.error _ => s
  | Op.message ws f => onMessage cfg ws f s
  | Op.sendMsg m to_ notTo => runSend cfg m to_ notTo s
  | Op.close ws c r wc => onClose ws c r wc s
  | Op.socketError ws e => onError ws e s
  | Op.hibernate => constructorRehydrate s

/-- Run a sequence of operations from a state. -/
def run (cfg : Config SMsg CMsg) (ops : List (Op SMsg CMsg)) (s : HState SMsg) :
    HState SMsg :=
  ops.foldl (fun s op => applyOp cfg op s) s

/-- A state reachable through the public operations from a fresh instance. -/
def Reachable (cfg : Config SMsg CMsg) (s : HState SMsg) : Prop :=
  ∃ ops : List (Op SMsg CMsg), run cfg ops initState = s

/-- Concrete client message shape used to instantiate the model in witness
theorems, mirroring the echo message of the integration test. -/
structure TestClientMsg where
  type : String
  messageId : String
  content : String
deriving DecidableEq, Repr

/-- Concrete configuration for witness theorems: server messages are strings
with one rejected shape, an echo handler that throws boom, and a noop
handler that completes normally. -/
def cfg0 : Config String TestClientMsg where
  serverParse := fun m => if m = "bad" then none else some m
  msgType := fun m => m.type
  msgId := fun m => m.messageId
  messageHandlers := fun t =>
    if t = "echo" then some (fun _ _ => HandlerResult.throwErr "boom")
    else if t = "noop" then some (fun _ _ => HandlerResult.ok)
    else none

/-- A token for alice scoped to the actor room-1, with a valid signature. -/
def token0 : Token :=
  { sigValid := true, payload := { sub := "alice", aud := "room-1" } }

/-- The handshake operation accepting token0 on actor room-1. -/
def opConnect : Op String TestClientMsg :=
  Op.handshake "room-1" (some "websocket") (some token0) 0 "sid-1"

/-- The session record created by opConnect. -/
def info0 : SocketSessionInfo :=
  { audience := "room-1", subject := "alice", socketId := "sid-1"
    status := Status.pending }

/-- State after the handshake: one pending session. -/
def s1 : HState String := applyOp cfg0 opConnect initState

/-- State after the handshake and two sends while the session is pending:
both messages sit in the backlog in order. -/
def s2 : HState String :=
  run cfg0 [opConnect, Op.sendMsg "ping1" none none, Op.sendMsg "ping2" none none]
    initState

/-- State after the handshake and one invalid inbound frame: the session has
been promoted to ready. -/
def s3 : HState String :=
  run cfg0 [opConnect, Op.message 0 InFrame.invalid] initState

/-! Helper lemmas shared by the claim theorems. -/

theorem sendStep_sent_mono (data : SMsg) (to_ notTo : Option (List String))
    (s : HState SMsg) (e : Nat × SocketSessionInfo) :
    ∃ t, (sendStep data to_ notTo s e).sent = s.sent ++ t := by
  unfold sendStep
  by_cases hf : sendFilterPasses to_ notTo e.2.subject
  · simp only [hf, if_pos]
    cases e.2.status
    · exact ⟨[], by simp⟩
    · exact ⟨[(e.1, Out.server data)], rfl⟩
    · exact ⟨[], by simp⟩
  · exact ⟨[], by simp [hf]⟩

theorem sendLoop_sent_mono (data : SMsg) (to_ notTo : Option (List String))
    (entries : List (Nat × SocketSessionInfo)) (s : HState SMsg) :
    ∃ t, (entries.foldl (sendStep data to_ notTo) s).sent = s.sent ++ t := by
  induction entries generalizing s with
  | nil => exact ⟨[], by simp⟩
  | cons e rest ih =>
    obtain ⟨t₁, h₁⟩ := sendStep_sent_mono data to_ notTo s e
    obtain ⟨t₂, h₂⟩ := ih (sendStep data to_ notTo s e)
    exact ⟨t₁ ++ t₂, by simp [List.foldl_cons, h₂, h₁]⟩

theorem sendLoop_socketInfo_lookup (data : SMsg) (to_ notTo : Option (List String))
    (entries : List (Nat × SocketSessionInfo)) (s : HState SMsg) (ws : Nat)
    (i : SocketSessionInfo)
    (h : mapGet (entries.foldl (sendStep data to_ notTo) s).socketInfo ws = some i) :
    mapGet s.socketInfo ws = some i := by
  induction entries generalizing s with
  | nil => simpa using h
  | cons e rest ih =>
    have h' := ih _ (by simpa [List.foldl_cons] using h)
    unfold sendStep at h'
    by_cases hf : sendFilterPasses to_ notTo e.2.subject
    · simp only [hf, if_pos] at h'
      cases hstat : e.2.status <;> simp [hstat] at h'
      · exact h'
      · exact h'
      · rw [mapGet_delete] at h'
        by_cases hk : e.1 = ws
        · simp [hk] at h'
        · simpa [hk] using h'
    · simpa [hf] using h'

theorem sendLoop_socketInfo_of_noClosed (data : SMsg) (to_ notTo : Option (List String))
    (entries : List (Nat × SocketSessionInfo)) (s : HState SMsg)
    (h : ∀ e ∈ entries, e.2.status ≠ Status.closed) :
    (entries.foldl (sendStep data to_ notTo) s).socketInfo = s.socketInfo := by
  induction entries generalizing s with
  | nil => simp
  | cons e rest ih =>
    have hstep : (sendStep data to_ notTo s e).socketInfo = s.socketInfo := by
      unfold sendStep
      by_cases hf : sendFilterPasses to_ notTo e.2.subject
      · simp only [hf, if_pos]
        cases hstat : e.2.status
        · rfl
        · rfl
        · exact absurd hstat (h e (List.mem_cons_self e rest))
      · simp [hf]
    rw [List.foldl_cons, ih _ (fun x hx => h x (List.mem_cons_of_mem e hx)), hstep]

theorem sendLoop_backlog_of_notPending (data : SMsg) (to_ notTo : Option (List String))
    (entries : List (Nat × SocketSessionInfo)) (s : HState SMsg) (sid : String)
    (h : ∀ e ∈ entries, e.2.socketId = sid → e.2.status ≠ Status.pending) :
    mapGet (entries.foldl (sendStep data to_ notTo) s).messageBacklogs sid =
      mapGet s.messageBacklogs sid := by
  induction entries generalizing s with
  | nil => simp
  | cons e rest ih =>
    have hstep : mapGet (sendStep data to_ notTo s e).messageBacklogs sid =
        mapGet s.messageBacklogs sid := by
      unfold sendStep
      by_cases hf : sendFilterPasses to_ notTo e.2.subject
      · simp only [hf, if_pos]
        cases hstat : e.2.status
        · by_cases hsid : e.2.socketId = sid
          · exact absurd hstat (h e (List.mem_cons_self e rest) hsid)
          · simp [mapGet_set, hsid]
        · rfl
        · rfl
      · simp [hf]
    rw [List.foldl_cons, ih _ (fun x hx => h x (List.mem_cons_of_mem e hx)), hstep]

theorem applyOp_sent_mono (cfg : Config SMsg CMsg) (op : Op SMsg CMsg) (s : HState SMsg) :
    ∃ t, (applyOp cfg op s).sent = s.sent ++ t := by
  cases op with
  | handshake a u t w sid =>
    by_cases hg : (mapGet s.socketInfo w).isSome || (mapGet s.attachments w).isSome
    · exact ⟨[], by simp [applyOp, hg]⟩
    · simp only [applyOp, hg, if_neg, Bool.false_eq_true, not_false_iff]
      cases hh : handshakeFetch a u t w sid s with
      | ok s' =>
        refine ⟨[], ?_⟩
        unfold handshakeFetch at hh
        split at hh
        · exact absurd hh (by simp)
        · split at hh
          · exact absurd hh (by simp)
          · split at hh
            · exact absurd hh (by simp)
            · split at hh
              · exact absurd hh (by simp)
              · simp only [Except.ok.injEq] at hh
                subst hh
                simp [updateSocketInfo]
      | error e => exact ⟨[], by simp⟩
  | message ws f =>
    unfold applyOp onMessage
    cases hi : mapGet s.socketInfo ws with
    | none => exact ⟨[], by simp [hi]⟩
    | some info =>
      simp only [hi]
      set s1 := if info.status = Status.pending then
        let s' := updateSocketInfo ws { info with status := Status.ready } s
        { s' with
          sent := s'.sent ++
            ((mapGet s'.messageBacklogs info.socketId).getD []).map
              (fun m => (ws, Out.server m)) }
        else s with hs1
      have hs1sent : ∃ t, s1.sent = s.sent ++ t := by
        rw [hs1]
        by_cases hp : info.status = Status.pending
        · refine ⟨((mapGet s.messageBacklogs info.socketId).getD []).map
            (fun m => (ws, Out.server m)), ?_⟩
          simp [hp, updateSocketInfo]
        · exact ⟨[], by simp [hp]⟩
      obtain ⟨t₁, ht₁⟩ := hs1sent
      cases f with
      | garbage => exact ⟨t₁ ++ [(ws, Out.err "Error handling message" none)], by simp [ht₁]⟩
      | invalid => exact ⟨t₁ ++ [(ws, Out.err "Invalid message format" none)], by simp [ht₁]⟩
      | valid msg =>
        unfold onClientMessage
        cases hh : cfg.messageHandlers (cfg.msgType msg) with
        | none => exact ⟨t₁ ++ [(ws, Out.ack (cfg.msgId msg))], by simp [hh, ht₁]⟩
        | some handler =>
          exact ⟨t₁ ++ [(ws, replyFor (handler msg info) (cfg.msgId msg))], by simp [hh, ht₁]⟩
  | sendMsg m to_ notTo =>
    unfold applyOp runSend send
    cases hp : cfg.serverParse m with
    | none => exact ⟨[], by simp [hp]⟩
    | some data =>
      simp only [hp]
      simpa using sendLoop_sent_mono data to_ notTo s.socketInfo s
  | close ws c r wc =>
    unfold applyOp onClose onWebSocketCloseOrError
    cases hcl : mapGet s.socketInfo ws <;> exact ⟨[], by simp [hcl]⟩
  | socketError ws e =>
    unfold applyOp onError onWebSocketCloseOrError
    cases hcl : mapGet s.socketInfo ws <;> exact ⟨[], by simp [hcl]⟩
  | hibernate => exact ⟨[], by simp [applyOp, constructorRehydrate]⟩

theorem run_sent_mono (cfg : Config SMsg CMsg) (ops : List (Op SMsg CMsg)) (s : HState SMsg) :
    ∃ t, (run cfg ops s).sent = s.sent ++ t := by
  induction ops generalizing s with
  | nil => exact ⟨[], by simp [run]⟩
  | cons op rest ih =>
    obtain ⟨t₁, h₁⟩ := applyOp_sent_mono cfg op s
    obtain ⟨t₂, h₂⟩ := ih (applyOp cfg op s)
    exact ⟨t₁ ++ t₂, by simp [run, List.foldl_cons] at h₂ ⊢; simp [h₂, h₁]⟩

theorem onClientMessage_spec (cfg : Config SMsg CMsg) (msg : CMsg) (ws : Nat)
    (info : SocketSessionInfo) (s : HState SMsg) :
    (onClientMessage cfg msg ws info s).socketInfo = s.socketInfo ∧
    (onClientMessage cfg msg ws info s).messageBacklogs = s.messageBacklogs ∧
    (onClientMessage cfg msg ws info s).attachments = s.attachments ∧
    (onClientMessage cfg msg ws info s).openSockets = s.openSockets ∧
    ∃ out, (onClientMessage cfg msg ws info s).sent = s.sent ++ [(ws, out)] := by
  unfold onClientMessage
  cases hh : cfg.messageHandlers (cfg.msgType msg) with
  | none => exact ⟨rfl, rfl, rfl, rfl, Out.ack (cfg.msgId msg), rfl⟩
  | some handler =>
    exact ⟨rfl, rfl, rfl, rfl, replyFor (handler msg info) (cfg.msgId msg), rfl⟩

theorem onMessage_notPending_one_reply (cfg : Config SMsg CMsg) (ws : Nat)
    (frame : InFrame CMsg) (s : HState SMsg) (info : SocketSessionInfo)
    (htrack : mapGet s.socketInfo ws = some info)
    (hnp : info.status ≠ Status.pending) :
    ∃ out, (onMessage cfg ws frame s).sent = s.sent ++ [(ws, out)] := by
  simp only [onMessage, htrack, hnp, if_neg]
  cases frame with
  | garbage => exact ⟨Out.err "Error handling message" none, by simp⟩
  | invalid => exact ⟨Out.err "Invalid message format" none, by simp⟩
  | valid msg =>
    obtain ⟨out, hout⟩ := (onClientMessage_spec cfg msg ws info s).2.2.2.2
    exact ⟨out, hout⟩

/-! Claim theorems. -/

/-- C4: in the fan-out of send, a session is targeted if and only if its
subject is a member of the to allow-list when one is given and not a member
of the notTo deny-list when one is given; with neither filter every known
session is targeted; a session failing the filters is skipped untouched by
the loop body, so with both filters the delivered set is the to set minus
the notTo set. -/
theorem send_targets_iff_filters (to_ notTo : Option (List String))
    (info : SocketSessionInfo) :
    (sendFilterPasses to_ notTo info.subject = true ↔
      ((∀ l, to_ = some l → info.subject ∈ l) ∧
       (∀ l, notTo = some l → info.subject ∉ l))) ∧
    sendFilterPasses none none info.subject = true ∧
    (∀ (data : SMsg) (s : HState SMsg) (ws : Nat),
      sendFilterPasses to_ notTo info.subject = false →
      sendStep data to_ notTo s (ws, info) = s) := by
  refine ⟨?_, by simp [sendFilterPasses], ?_⟩
  · cases to_ <;> cases notTo <;> simp [sendFilterPasses]
  · intro data s ws h
    simp [sendStep, h]

/-- Witness for C4 at a concrete filter pair and session. -/
theorem send_targets_iff_filters_witness :
    sendFilterPasses (some ["bob"]) (some ["alice"]) info0.subject = false ∧
    sendStep "m" (some ["bob"]) (some ["alice"]) s1 (0, info0) = s1 :=
  ⟨by decide,
   (send_targets_iff_filters (some ["bob"]) (some ["alice"]) info0).2.2 "m" s1 0
     (by decide)⟩

/-- C1: an inbound frame on a pending session first promotes the session to
ready, then replays the whole backlog queued under its socketId over the
connection in original enqueue order, and only after that come the reply for
the frame and, by trace monotonicity, every later message of the instance. -/
theorem pending_frame_promotes_then_flushes_backlog_first
    (cfg : Config SMsg CMsg) (s : HState SMsg) (ws : Nat) (info : SocketSessionInfo)
    (frame : InFrame CMsg)
    (htrack : mapGet s.socketInfo ws = some info)
    (hpend : info.status = Status.pending) :
    mapGet (onMessage cfg ws frame s).socketInfo ws =
      some { info with status := Status.ready } ∧
    (∃ replies, (onMessage cfg ws frame s).sent =
      s.sent ++ ((mapGet s.messageBacklogs info.socketId).getD []).map
        (fun m => (ws, Out.server m)) ++ replies) ∧
    (∀ ops : List (Op SMsg CMsg), ∃ later,
      (run cfg ops (onMessage cfg ws frame s)).sent =
        (onMessage cfg ws frame s).sent ++ later) := by
  refine ⟨?_, ?_, fun ops => run_sent_mono cfg ops _⟩
  · simp only [onMessage, htrack, hpend, if_pos]
    cases frame with
    | garbage => simp [updateSocketInfo, mapGet_set]
    | invalid => simp [updateSocketInfo, mapGet_set]
    | valid msg =>
      rw [(onClientMessage_spec cfg msg ws info _).1]
      simp [updateSocketInfo, mapGet_set]
  · simp only [onMessage, htrack, hpend, if_pos]
    cases frame with
    | garbage =>
      exact ⟨[(ws, Out.err "Error handling message" none)], by simp [updateSocketInfo]⟩
    | invalid =>
      exact ⟨[(ws, Out.err "Invalid message format" none)], by simp [updateSocketInfo]⟩
    | valid msg =>
      obtain ⟨out, hout⟩ := (onClientMessage_spec cfg msg ws info _).2.2.2.2
      exact ⟨[(ws, out)], by rw [hout]; simp [updateSocketInfo]⟩

/-- Witness for C1: in the state with two backlogged pings, the promoting
echo frame flushes both pings before the reply for the frame. -/
theorem pending_frame_promotes_then_flushes_backlog_first_witness :
    mapGet s2.socketInfo 0 = some info0 ∧ info0.status = Status.pending ∧
    mapGet (onMessage cfg0 0 (InFrame.valid ⟨"echo", "1", "hi"⟩) s2).socketInfo 0 =
      some { info0 with status := Status.ready } ∧
    (∃ replies, (onMessage cfg0 0 (InFrame.valid ⟨"echo", "1", "hi"⟩) s2).sent =
      s2.sent ++ ((mapGet s2.messageBacklogs info0.socketId).getD []).map
        (fun m => (0, Out.server m)) ++ replies) :=
  ⟨by decide, by decide,
   (pending_frame_promotes_then_flushes_backlog_first cfg0 s2 0 info0
      (InFrame.valid ⟨"echo", "1", "hi"⟩) (by decide) (by decide)).1,
   (pending_frame_promotes_then_flushes_backlog_first cfg0 s2 0 info0
      (InFrame.valid ⟨"echo", "1", "hi"⟩) (by decide) (by decide)).2.1⟩

/-- C7: a message failing outbound validation makes send throw the
SocketHandlerError before any fan-out; the caller observes an unchanged
state, so no session receives the message, no backlog entry is created and
the registry is untouched. -/
theorem invalid_server_message_send_throws (cfg : Config SMsg CMsg) (msg : SMsg)
    (to_ notTo : Option (List String)) (s : HState SMsg)
    (h : cfg.serverParse msg = none) :
    send cfg msg to_ notTo s =
      Except.error { message := "Invalid server message shape: ", code := 500 } ∧
    runSend cfg msg to_ notTo s = s := by
  constructor
  · simp [send, h]
  · simp [runSend, send, h]

/-- Witness for C7 on the concrete configuration, whose server schema
rejects the message bad. -/
theorem invalid_server_message_send_throws_witness :
    cfg0.serverParse "bad" = none ∧ runSend cfg0 "bad" none none s2 = s2 :=
  ⟨by decide, (invalid_server_message_send_throws cfg0 "bad" none none s2 (by decide)).2⟩

/-- C5 counterexample: on a ready session, a frame whose body fails
JSON.parse lands in the catch block of onMessage, whose reply message is
Error handling message, not the Invalid message format reply the claim
states (that one is sent only for bodies that parse but fail the schema). -/
theorem unparseable_frame_reply_counterexample :
    (onMessage cfg0 0 InFrame.garbage s3).sent =
      s3.sent ++ [(0, Out.err "Error handling message" none)] ∧
    Out.err "Error handling message" none ≠
      (Out.err "Invalid message format" none : Out String) := by
  constructor
  · decide
  · decide

/-- C5 amended: a frame whose body cannot be parsed as JSON is answered with
exactly the reply of type error, message Error handling message and
responseTo null, and no application handler is invoked (the events trace is
unchanged). -/
theorem unparseable_frame_error_reply (cfg : Config SMsg CMsg) (s : HState SMsg)
    (ws : Nat) (info : SocketSessionInfo)
    (htrack : mapGet s.socketInfo ws = some info) :
    (onMessage cfg ws InFrame.garbage s).sent =
      s.sent ++ (if info.status = Status.pending then
        ((mapGet s.messageBacklogs info.socketId).getD []).map
          (fun m => (ws, Out.server m))
        else []) ++ [(ws, Out.err "Error handling message" none)] ∧
    (onMessage cfg ws InFrame.garbage s).events = s.events := by
  by_cases hp : info.status = Status.pending
  · simp only [onMessage, htrack, hp, if_pos]
    exact ⟨by simp [updateSocketInfo, hp], by simp [updateSocketInfo]⟩
  · simp only [onMessage, htrack, hp, if_neg]
    exact ⟨by simp [hp], by simp⟩

/-- Witness for the amended C5 on the ready session of s3. -/
theorem unparseable_frame_error_reply_witness :
    mapGet s3.socketInfo 0 = some { info0 with status := Status.ready } ∧
    (onMessage cfg0 0 InFrame.garbage s3).events = s3.events :=
  ⟨by decide,
   (unparseable_frame_error_reply cfg0 s3 0 { info0 with status := Status.ready }
     (by decide)).2⟩

/-- C6 counterexample: the promotion flush does not delete the backlog Map
entry; after the echo frame promotes the session of s2 to ready, the entry
for sid-1 still holds both messages instead of being removed. -/
theorem backlog_survives_flush_counterexample :
    mapGet (onMessage cfg0 0 (InFrame.valid ⟨"noop", "2", "x"⟩) s2).socketInfo 0 =
      some { info0 with status := Status.ready } ∧
    mapGet (onMessage cfg0 0 (InFrame.valid ⟨"noop", "2", "x"⟩) s2).messageBacklogs
      "sid-1" = some ["ping1", "ping2"] ∧
    some ["ping1", "ping2"] ≠ (none : Option (List String)) := by
  refine ⟨by decide, by decide, by decide⟩

/-- C6 amended: the flush at the pending to ready transition sends the
backlog but leaves the Map entry in place (onMessage never modifies the
backlog Map); the stale entry is never extended again, because send only
appends to the backlog of a session whose snapshot status is pending. -/
theorem backlog_not_deleted_and_not_extended (cfg : Config SMsg CMsg) (ws : Nat)
    (frame : InFrame CMsg) (s : HState SMsg) :
    (onMessage cfg ws frame s).messageBacklogs = s.messageBacklogs ∧
    (∀ (data : SMsg) (to_ notTo : Option (List String))
        (entries : List (Nat × SocketSessionInfo)) (acc : HState SMsg) (sid : String),
      (∀ e ∈ entries, e.2.socketId = sid → e.2.status ≠ Status.pending) →
      mapGet (entries.foldl (sendStep data to_ notTo) acc).messageBacklogs sid =
        mapGet acc.messageBacklogs sid) := by
  constructor
  · unfold onMessage
    cases hi : mapGet s.socketInfo ws with
    | none => simp [hi]
    | some info =>
      simp only [hi]
      cases frame with
      | garbage =>
        by_cases hp : info.status = Status.pending <;> simp [hp, updateSocketInfo]
      | invalid =>
        by_cases hp : info.status = Status.pending <;> simp [hp, updateSocketInfo]
      | valid msg =>
        rw [(onClientMessage_spec cfg msg ws info _).2.1]
        by_cases hp : info.status = Status.pending <;> simp [hp, updateSocketInfo]
  · exact fun data to_ notTo entries acc sid h =>
      sendLoop_backlog_of_notPending data to_ notTo entries acc sid h

/-- Witness for the amended C6: sending to the ready session of s3 leaves
the backlog entry for its socketId unchanged. -/
theorem backlog_not_deleted_and_not_extended_witness :
    (∀ e ∈ s3.socketInfo, e.2.socketId = "sid-1" → e.2.status ≠ Status.pending) ∧
    mapGet (s3.socketInfo.foldl (sendStep "x" none none) s3).messageBacklogs "sid-1" =
      mapGet s3.messageBacklogs "sid-1" :=
  ⟨by decide,
   (backlog_not_deleted_and_not_extended cfg0 0 InFrame.garbage s3).2 "x" none none
     s3.socketInfo s3 "sid-1" (by decide)⟩

/-- C8: a valid frame whose type has a registered handler produces exactly
one reply: replyFor maps a normal completion to ack with responseTo equal to
the messageId and a throw to an error frame carrying the thrown message with
the same responseTo, so no ack accompanies an error; the session stays in
the registry (promoted when the frame was the first) and a further frame on
the session still produces a reply. -/
theorem handler_outcome_determines_reply (cfg : Config SMsg CMsg) (s : HState SMsg)
    (ws : Nat) (info : SocketSessionInfo) (msg : CMsg)
    (h : CMsg → SocketSessionInfo → HandlerResult)
    (htrack : mapGet s.socketInfo ws = some info)
    (hh : cfg.messageHandlers (cfg.msgType msg) = some h) :
    (onMessage cfg ws (InFrame.valid msg) s).sent =
      s.sent ++ (if info.status = Status.pending then
        ((mapGet s.messageBacklogs info.socketId).getD []).map
          (fun m => (ws, Out.server m))
        else []) ++ [(ws, replyFor (h msg info) (cfg.msgId msg))] ∧
    mapGet (onMessage cfg ws (InFrame.valid msg) s).socketInfo ws =
      some (if info.status = Status.pending then { info with status := Status.ready }
        else info) ∧
    (∀ frame2 : InFrame CMsg, ∃ out2,
      (onMessage cfg ws frame2 (onMessage cfg ws (InFrame.valid msg) s)).sent =
        (onMessage cfg ws (InFrame.valid msg) s).sent ++ [(ws, out2)]) := by
  have hsent : (onMessage cfg ws (InFrame.valid msg) s).sent =
      s.sent ++ (if info.status = Status.pending then
        ((mapGet s.messageBacklogs info.socketId).getD []).map
          (fun m => (ws, Out.server m))
        else []) ++ [(ws, replyFor (h msg info) (cfg.msgId msg))] := by
    by_cases hp : info.status = Status.pending
    · simp only [onMessage, htrack, hp, if_pos]
      simp [onClientMessage, hh, updateSocketInfo, hp]
    · simp only [onMessage, htrack, hp, if_neg]
      simp [onClientMessage, hh, hp]
  have hlook : mapGet (onMessage cfg ws (InFrame.valid msg) s).socketInfo ws =
      some (if info.status = Status.pending then { info with status := Status.ready }
        else info) := by
    by_cases hp : info.status = Status.pending
    · simp only [onMessage, htrack, hp, if_pos]
      rw [(onClientMessage_spec cfg msg ws info _).1]
      simp [updateSocketInfo, mapGet_set, hp]
    · simp only [onMessage, htrack, hp, if_neg]
      rw [(onClientMessage_spec cfg msg ws info _).1]
      simp [htrack, hp]
  refine ⟨hsent, hlook, ?_⟩
  intro frame2
  refine onMessage_notPending_one_reply cfg ws frame2 _ _ hlook ?_
  by_cases hp : info.status = Status.pending <;> simp [hp]

/-- Witness for C8, matching the scenario of the spec: the echo handler of
cfg0 throws boom, so the promoting echo frame is answered, after the empty
backlog, by the error reply boom with responseTo 1. -/
theorem handler_outcome_determines_reply_witness :
    mapGet s1.socketInfo 0 = some info0 ∧
    cfg0.messageHandlers "echo" = some (fun _ _ => HandlerResult.throwErr "boom") ∧
    (onMessage cfg0 0 (InFrame.valid ⟨"echo", "1", "hi"⟩) s1).sent =
      s1.sent ++ [] ++ [(0, Out.err "boom" (some "1"))] :=
  ⟨by decide, by rfl,
   by
    have := (handler_outcome_determines_reply cfg0 s1 0 info0 ⟨"echo", "1", "hi"⟩
      (fun _ _ => HandlerResult.throwErr "boom") (by decide) (by rfl)).1
    simpa using this⟩

/-- C9: a close event or a transport error on a tracked socket tears the
session down: the disconnect hook is invoked with the session record,
receiving the error exactly when an error triggered the teardown, and the
registry entry is removed.  The source represents the closed state by this
removal: a session is destroyed when it becomes closed, and no record with
status closed is ever stored. -/
theorem close_or_error_notifies_and_removes (s : HState SMsg) (ws : Nat)
    (info : SocketSessionInfo)
    (htrack : mapGet s.socketInfo ws = some info) :
    (∀ (code : Nat) (reason : String) (wasClean : Bool),
      (onClose ws code reason wasClean s).events =
        s.events ++ [Event.disconnect info none] ∧
      mapGet (onClose ws code reason wasClean s).socketInfo ws = none) ∧
    (∀ errMessage : Option String,
      (onError ws errMessage s).events =
        s.events ++ [Event.disconnect info (some (errMessage.getD "Unknown error"))] ∧
      mapGet (onError ws errMessage s).socketInfo ws = none) := by
  constructor
  · intro code reason wasClean
    unfold onClose onWebSocketCloseOrError
    simp [htrack, mapGet_delete]
  · intro e
    unfold onError onWebSocketCloseOrError
    simp [htrack, mapGet_delete]

/-- Witness for C9 on the ready session of s3: a plain close invokes the
disconnect hook without an error and removes the session. -/
theorem close_or_error_notifies_and_removes_witness :
    mapGet s3.socketInfo 0 = some { info0 with status := Status.ready } ∧
    (onClose 0 1000 "bye" true s3).events =
      s3.events ++ [Event.disconnect { info0 with status := Status.ready } none] ∧
    mapGet (onClose 0 1000 "bye" true s3).socketInfo 0 = none :=
  ⟨by decide,
   ((close_or_error_notifies_and_removes s3 0 { info0 with status := Status.ready }
      (by decide)).1 1000 "bye" true).1,
   ((close_or_error_notifies_and_removes s3 0 { info0 with status := Status.ready }
      (by decide)).1 1000 "bye" true).2⟩

/-- C3: an upgrade request carrying a token whose audience claim differs
from the actor identity is rejected with the authentication error propagated
out of verifySocketToken; the state is unchanged, so no websocket pair is
accepted, the registry keeps its size and the connect hook is not invoked;
and in general a handshake can only return a connection after
verifySocketToken succeeded on the presented token. -/
theorem audience_mismatch_rejects_handshake (actorId hdr : String) (t : Token)
    (freshWs : Nat) (freshSocketId : String) (s : HState SMsg)
    (hhdr : lowercase hdr = "websocket")
    (haud : t.payload.aud ≠ actorId) :
    (∃ m, handshakeFetch actorId (some hdr) (some t) freshWs freshSocketId s =
      Except.error (HandshakeError.authError m)) ∧
    (∀ cfg : Config SMsg CMsg,
      applyOp cfg (Op.handshake actorId (some hdr) (some t) freshWs freshSocketId) s
        = s) ∧
    (∀ (u : Option String) (t' : Option Token) (w : Nat) (sid : String)
        (sa sb : HState SMsg),
      handshakeFetch actorId u t' w sid sa = Except.ok sb →
      ∃ tok payload, t' = some tok ∧
        verifySocketToken tok actorId = Except.ok payload) := by
  have hrej : ∃ m, handshakeFetch actorId (some hdr) (some t)
      freshWs freshSocketId s = Except.error (HandshakeError.authError m) := by
    unfold handshakeFetch verifySocketToken
    cases hsv : t.sigValid with
    | false => exact ⟨"jwt verification failed", by simp [hhdr, hsv]⟩
    | true => exact ⟨"Invalid audience", by simp [hhdr, hsv, haud]⟩
  refine ⟨hrej, ?_, ?_⟩
  · intro cfg
    obtain ⟨m, hm⟩ := hrej
    unfold applyOp
    by_cases hg : (mapGet s.socketInfo freshWs).isSome
        || (mapGet s.attachments freshWs).isSome
    · simp [hg]
    · simp [hg, hm]
  · intro u t' w sid sa sb hok
    unfold handshakeFetch at hok
    split at hok
    · exact absurd hok (by simp)
    · split at hok
      · exact absurd hok (by simp)
      · split at hok
        · exact absurd hok (by simp)
        · rename_i tok
          split at hok
          · exact absurd hok (by simp)
          · rename_i payload hv
            exact ⟨tok, payload, rfl, hv⟩

/-- Witness for C3: the token scoped to room-1 is rejected by the actor
room-2 with the whole state unchanged. -/
theorem audience_mismatch_rejects_handshake_witness :
    lowercase "websocket" = "websocket" ∧ token0.payload.aud ≠ "room-2" ∧
    applyOp cfg0 (Op.handshake "room-2" (some "websocket") (some token0) 7 "sid-7") s1
      = s1 :=
  ⟨by decide, by decide,
   (audience_mismatch_rejects_handshake "room-2" "websocket" token0 7 "sid-7" s1
      (by decide) (by decide)).2.1 cfg0⟩

/-- No stored record carries status closed. -/
def NoClosed (m : List (Nat × SocketSessionInfo)) : Prop :=
  ∀ p ∈ m, p.2.status ≠ Status.closed

/-- Every socket the platform still reports open has its registry record
equal to its persisted attachment, which updateSocketInfo keeps in sync. -/
def Agrees (s : HState SMsg) : Prop :=
  ∀ ws ∈ s.openSockets, mapGet s.socketInfo ws = mapGet s.attachments ws

/-- Invariant maintained by every public operation. -/
def Inv (s : HState SMsg) : Prop :=
  NoClosed s.socketInfo ∧ NoClosed s.attachments ∧ Agrees s

theorem rehydrate_lookup_some (att : List (Nat × SocketSessionInfo)) (l : List Nat)
    (ws : Nat) (i : SocketSessionInfo)
    (h : mapGet (l.filterMap (fun w => (mapGet att w).map (fun j => (w, j)))) ws
      = some i) :
    ws ∈ l ∧ mapGet att ws = some i := by
  induction l with
  | nil => simp [mapGet] at h
  | cons w rest ih =>
    cases hw : mapGet att w with
    | none =>
      rw [List.filterMap_cons, hw] at h
      obtain ⟨hmem, ha⟩ := ih h
      exact ⟨List.mem_cons_of_mem _ hmem, ha⟩
    | some j =>
      rw [List.filterMap_cons, hw] at h
      by_cases hkey : w = ws
      · subst hkey
        simp [mapGet] at h
        exact ⟨List.mem_cons_self _ _, by rw [hw, h]⟩
      · simp only [Option.map_some', mapGet, if_neg hkey] at h
        obtain ⟨hmem, ha⟩ := ih h
        exact ⟨List.mem_cons_of_mem _ hmem, ha⟩

theorem rehydrate_lookup_of_mem (att : List (Nat × SocketSessionInfo)) (l : List Nat)
    (ws : Nat) (h : ws ∈ l) :
    mapGet (l.filterMap (fun w => (mapGet att w).map (fun j => (w, j)))) ws
      = mapGet att ws := by
  induction l with
  | nil => simp at h
  | cons w rest ih =>
    cases hw : mapGet att w with
    | none =>
      rw [List.filterMap_cons, hw]
      simp only [Option.map_none']
      rcases List.mem_cons.mp h with heq | hmem
      · subst heq
        cases hres : mapGet (rest.filterMap
            (fun w => (mapGet att w).map (fun j => (w, j)))) ws with
        | none => exact hw.symm
        | some j =>
          have hc := (rehydrate_lookup_some att rest ws j hres).2
          rw [hw] at hc
          exact absurd hc (by simp)
      · exact ih hmem
    | some j =>
      rw [List.filterMap_cons, hw]
      simp only [Option.map_some']
      by_cases hkey : w = ws
      · subst hkey
        simp [mapGet, hw]
      · rcases List.mem_cons.mp h with heq | hmem
        · exact absurd heq.symm hkey
        · simp only [mapGet, if_neg hkey]
          exact ih hmem

theorem rehydrate_NoClosed (att : List (Nat × SocketSessionInfo)) (l : List Nat)
    (h : NoClosed att) :
    NoClosed (l.filterMap (fun w => (mapGet att w).map (fun j => (w, j)))) := by
  intro p hp
  obtain ⟨w, _, hw⟩ := List.mem_filterMap.mp hp
  cases hatt : mapGet att w with
  | none => rw [hatt] at hw; simp at hw
  | some j =>
    rw [hatt] at hw
    simp only [Option.map_some', Option.some.injEq] at hw
    subst hw
    exact h _ (mapGet_mem hatt)

theorem sendStep_att_open (data : SMsg) (to_ notTo : Option (List String))
    (s : HState SMsg) (e : Nat × SocketSessionInfo) :
    (sendStep data to_ notTo s e).attachments = s.attachments ∧
    (sendStep data to_ notTo s e).openSockets = s.openSockets := by
  unfold sendStep
  by_cases hf : sendFilterPasses to_ notTo e.2.subject
  · simp only [hf, if_pos]
    cases e.2.status <;> exact ⟨rfl, rfl⟩
  · simp [hf]

theorem sendLoop_att_open (data : SMsg) (to_ notTo : Option (List String))
    (entries : List (Nat × SocketSessionInfo)) (s : HState SMsg) :
    (entries.foldl (sendStep data to_ notTo) s).attachments = s.attachments ∧
    (entries.foldl (sendStep data to_ notTo) s).openSockets = s.openSockets := by
  induction entries generalizing s with
  | nil => exact ⟨rfl, rfl⟩
  | cons e rest ih =>
    obtain ⟨h1, h2⟩ := sendStep_att_open data to_ notTo s e
    obtain ⟨h3, h4⟩ := ih (sendStep data to_ notTo s e)
    rw [List.foldl_cons]
    exact ⟨by rw [h3, h1], by rw [h4, h2]⟩

theorem handshakeFetch_ok (a : String) (u : Option String) (t : Option Token)
    (w : Nat) (sid : String) (s s' : HState SMsg)
    (h : handshakeFetch a u t w sid s = Except.ok s') :
    ∃ payload : TokenPayload,
      s' = { s with
        socketInfo := mapSet s.socketInfo w
          { audience := payload.aud, subject := payload.sub, socketId := sid
            status := Status.pending }
        attachments := mapSet s.attachments w
          { audience := payload.aud, subject := payload.sub, socketId := sid
            status := Status.pending }
        openSockets := s.openSockets ++ [w]
        accepted := s.accepted ++ [w]
        events := s.events ++ [Event.connect
          { audience := payload.aud, subject := payload.sub, socketId := sid
            status := Status.pending }] } := by
  unfold handshakeFetch at h
  split at h
  · exact absurd h (by simp)
  · split at h
    · exact absurd h (by simp)
    · split at h
      · exact absurd h (by simp)
      · split at h
        · exact absurd h (by simp)
        · rename_i payload hv
          refine ⟨payload, ?_⟩
          simp only [Except.ok.injEq] at h
          subst h
          simp [updateSocketInfo]

theorem inv_fields {s s' : HState SMsg} (hinv : Inv s)
    (h1 : s'.socketInfo = s.socketInfo) (h2 : s'.attachments = s.attachments)
    (h3 : s'.openSockets = s.openSockets) : Inv s' := by
  obtain ⟨a, b, c⟩ := hinv
  refine ⟨?_, ?_, ?_⟩
  · rw [h1]; exact a
  · rw [h2]; exact b
  · intro x hx
    rw [h3] at hx
    rw [h1, h2]
    exact c x hx

theorem inv_updateSocketInfo {s : HState SMsg} (hinv : Inv s) (ws : Nat)
    (info : SocketSessionInfo) (hst : info.status ≠ Status.closed) :
    Inv (updateSocketInfo ws info s) := by
  obtain ⟨a, b, c⟩ := hinv
  refine ⟨?_, ?_, ?_⟩
  · intro p hp
    rcases mem_mapSet hp with heq | hp'
    · rw [heq]; exact hst
    · exact a p hp'
  · intro p hp
    rcases mem_mapSet hp with heq | hp'
    · rw [heq]; exact hst
    · exact b p hp'
  · intro x hx
    show mapGet (mapSet s.socketInfo ws info) x = mapGet (mapSet s.attachments ws info) x
    rw [mapGet_set, mapGet_set]
    by_cases hwx : ws = x
    · simp [hwx]
    · simp only [if_neg hwx]
      exact c x hx

theorem inv_closeOrError (s : HState SMsg) (hinv : Inv s) (ws : Nat)
    (error : Option String) : Inv (onWebSocketCloseOrError ws error s) := by
  obtain ⟨hsi, hatt, hagree⟩ := hinv
  unfold onWebSocketCloseOrError
  cases hi : mapGet s.socketInfo ws with
  | none =>
    simp only [hi]
    refine ⟨?_, hatt, ?_⟩
    · intro p hp
      exact hsi p (mem_mapDelete hp)
    · intro x hx
      have hx' := List.mem_filter.mp hx
      have hne : x ≠ ws := by simpa using hx'.2
      show mapGet (mapDelete s.socketInfo ws) x = mapGet s.attachments x
      rw [mapGet_delete, if_neg (fun hh => hne hh.symm)]
      exact hagree x hx'.1
  | some info =>
    simp only [hi]
    refine ⟨?_, hatt, ?_⟩
    · intro p hp
      exact hsi p (mem_mapDelete hp)
    · intro x hx
      have hx' := List.mem_filter.mp hx
      have hne : x ≠ ws := by simpa using hx'.2
      show mapGet (mapDelete s.socketInfo ws) x = mapGet s.attachments x
      rw [mapGet_delete, if_neg (fun hh => hne hh.symm)]
      exact hagree x hx'.1

theorem inv_rehydrate (s : HState SMsg) (hinv : Inv s) :
    Inv (constructorRehydrate s) := by
  obtain ⟨hsi, hatt, hagree⟩ := hinv
  unfold constructorRehydrate
  refine ⟨?_, hatt, ?_⟩
  · exact rehydrate_NoClosed s.attachments s.openSockets hatt
  · intro x hx
    exact rehydrate_lookup_of_mem s.attachments s.openSockets x hx

theorem inv_applyOp (cfg : Config SMsg CMsg) (op : Op SMsg CMsg) (s : HState SMsg)
    (hinv : Inv s) : Inv (applyOp cfg op s) := by
  obtain ⟨hsi, hatt, hagree⟩ := hinv
  cases op with
  | handshake a u t w sid =>
    by_cases hg : ((mapGet s.socketInfo w).isSome
        || (mapGet s.attachments w).isSome) = true
    · have hred : applyOp cfg (Op.handshake a u t w sid) s = s := by
        simp [applyOp, hg]
      rw [hred]
      exact ⟨hsi, hatt, hagree⟩
    · have hred : applyOp cfg (Op.handshake a u t w sid) s =
          (match handshakeFetch a u t w sid s with
           | Except.ok s' => s'
           | Except.error _ => s) := by
        simp [applyOp, hg]
      rw [hred]
      cases hh : handshakeFetch a u t w sid s with
      | error e => exact ⟨hsi, hatt, hagree⟩
      | ok s' =>
        obtain ⟨payload, hs'⟩ := handshakeFetch_ok a u t w sid s s' hh
        subst hs'
        refine ⟨?_, ?_, ?_⟩
        · intro p hp
          rcases mem_mapSet hp with heq | hp'
          · rw [heq]; simp
          · exact hsi p hp'
        · intro p hp
          rcases mem_mapSet hp with heq | hp'
          · rw [heq]; simp
          · exact hatt p hp'
        · intro x hx
          show mapGet (mapSet s.socketInfo w _) x = mapGet (mapSet s.attachments w _) x
          rw [mapGet_set, mapGet_set]
          by_cases hwx : w = x
          · simp [hwx]
          · simp only [if_neg hwx]
            have hx' : x ∈ s.openSockets ++ [w] := hx
            rcases List.mem_append.mp hx' with hm | hm
            · exact hagree x hm
            · simp at hm
              exact absurd hm.symm hwx
  | message wsm f =>
    unfold applyOp onMessage
    cases hi : mapGet s.socketInfo wsm with
    | none =>
      simp only [hi]
      exact ⟨hsi, hatt, hagree⟩
    | some info =>
      simp only [hi]
      by_cases hp : info.status = Status.pending
      · simp only [hp, if_pos]
        have hinvU : Inv (updateSocketInfo wsm { info with status := Status.ready } s) :=
          inv_updateSocketInfo ⟨hsi, hatt, hagree⟩ wsm
            { info with status := Status.ready } (by simp)
        cases f with
        | garbage => exact inv_fields hinvU rfl rfl rfl
        | invalid => exact inv_fields hinvU rfl rfl rfl
        | valid msg =>
          obtain ⟨e1, _, e3, e4, _⟩ := onClientMessage_spec cfg msg wsm info _
          exact inv_fields hinvU e1 e3 e4
      · simp only [hp, if_neg]
        cases f with
        | garbage => exact inv_fields ⟨hsi, hatt, hagree⟩ rfl rfl rfl
        | invalid => exact inv_fields ⟨hsi, hatt, hagree⟩ rfl rfl rfl
        | valid msg =>
          obtain ⟨e1, _, e3, e4, _⟩ := onClientMessage_spec cfg msg wsm info s
          exact inv_fields ⟨hsi, hatt, hagree⟩ e1 e3 e4
  | sendMsg m to_ notTo =>
    unfold applyOp runSend send
    cases hpm : cfg.serverParse m with
    | none =>
      simp only [hpm]
      exact ⟨hsi, hatt, hagree⟩
    | some data =>
      simp only [hpm]
      have e1 := sendLoop_socketInfo_of_noClosed data to_ notTo s.socketInfo s hsi
      obtain ⟨e3, e4⟩ := sendLoop_att_open data to_ notTo s.socketInfo s
      exact inv_fields ⟨hsi, hatt, hagree⟩ e1 e3 e4
  | close ws c r wc => exact inv_closeOrError s ⟨hsi, hatt, hagree⟩ ws none
  | socketError ws e =>
    exact inv_closeOrError s ⟨hsi, hatt, hagree⟩ ws
      (some (e.getD "Unknown error"))
  | hibernate => exact inv_rehydrate s ⟨hsi, hatt, hagree⟩

theorem inv_initState : Inv (initState : HState SMsg) :=
  ⟨fun p hp => absurd hp (by simp [initState]),
   fun p hp => absurd hp (by simp [initState]),
   fun x hx => absurd hx (by simp [initState])⟩

theorem inv_run (cfg : Config SMsg CMsg) (ops : List (Op SMsg CMsg)) (s : HState SMsg)
    (h : Inv s) : Inv (run cfg ops s) := by
  induction ops generalizing s with
  | nil => exact h
  | cons op rest ih => exact ih _ (inv_applyOp cfg op s h)

theorem reachable_inv (cfg : Config SMsg CMsg) (s : HState SMsg)
    (h : Reachable cfg s) : Inv s := by
  obtain ⟨ops, rfl⟩ := h
  exact inv_run cfg ops initState inv_initState

/-- C10: in every state reachable through the public operations, no session
stored in the registry and no persisted attachment carries status closed
(closure deletes the entry without ever writing closed, and only pending or
ready records are persisted or restored), so the closed branch of the
fan-out of send is unreachable: a send never changes the registry. -/
theorem reachable_registry_never_closed (cfg : Config SMsg CMsg) (s : HState SMsg)
    (h : Reachable cfg s) :
    (∀ (ws : Nat) (info : SocketSessionInfo),
      mapGet s.socketInfo ws = some info → info.status ≠ Status.closed) ∧
    (∀ (ws : Nat) (info : SocketSessionInfo),
      mapGet s.attachments ws = some info → info.status ≠ Status.closed) ∧
    (∀ (msg : SMsg) (to_ notTo : Option (List String)),
      (runSend cfg msg to_ notTo s).socketInfo = s.socketInfo) := by
  obtain ⟨h1, h2, -⟩ := reachable_inv cfg s h
  refine ⟨fun ws info hws => h1 _ (mapGet_mem hws),
    fun ws info hws => h2 _ (mapGet_mem hws), ?_⟩
  intro msg to_ notTo
  unfold runSend send
  cases hp : cfg.serverParse msg with
  | none => simp [hp]
  | some data =>
    simp only [hp]
    exact sendLoop_socketInfo_of_noClosed data to_ notTo s.socketInfo s h1

/-- Witness for C10 on the reachable state s3 with a ready session. -/
theorem reachable_registry_never_closed_witness :
    Reachable cfg0 s3 ∧
    (runSend cfg0 "hello" none none s3).socketInfo = s3.socketInfo :=
  ⟨⟨[opConnect, Op.message 0 InFrame.invalid], rfl⟩,
   (reachable_registry_never_closed cfg0 s3
      ⟨[opConnect, Op.message 0 InFrame.invalid], rfl⟩).2.2 "hello" none none⟩

/-- C2: from any reachable state, one public operation never changes the
stored status of a session except from pending to ready, so only the
transitions pending to ready and, represented by removal, pending or ready
to closed ever occur and no status regresses; and a successful handshake
stores the new session with status pending. -/
theorem status_transitions_monotonic (cfg : Config SMsg CMsg) (s : HState SMsg)
    (h : Reachable cfg s) :
    (∀ (op : Op SMsg CMsg) (ws : Nat) (i1 i2 : SocketSessionInfo),
      mapGet s.socketInfo ws = some i1 →
      mapGet (applyOp cfg op s).socketInfo ws = some i2 →
      i1.status = i2.status ∨
        (i1.status = Status.pending ∧ i2.status = Status.ready)) ∧
    (∀ (a : String) (u : Option String) (t : Option Token) (w : Nat) (sid : String)
        (s' : HState SMsg) (info : SocketSessionInfo),
      handshakeFetch a u t w sid s = Except.ok s' →
      mapGet s'.socketInfo w = some info → info.status = Status.pending) := by
  obtain ⟨hsi, hatt, hagree⟩ := reachable_inv cfg s h
  constructor
  · intro op ws i1 i2 h1 h2
    cases op with
    | handshake a u t w sid =>
      by_cases hg : ((mapGet s.socketInfo w).isSome
          || (mapGet s.attachments w).isSome) = true
      · rw [show applyOp cfg (Op.handshake a u t w sid) s = s by simp [applyOp, hg]]
          at h2
        rw [h1] at h2
        exact Or.inl (by rw [Option.some_inj.mp h2])
      · rw [show applyOp cfg (Op.handshake a u t w sid) s =
            (match handshakeFetch a u t w sid s with
             | Except.ok s' => s'
             | Except.error _ => s) by simp [applyOp, hg]] at h2
        cases hh : handshakeFetch a u t w sid s with
        | error e =>
          rw [hh] at h2
          simp only at h2
          rw [h1] at h2
          exact Or.inl (by rw [Option.some_inj.mp h2])
        | ok s' =>
          rw [hh] at h2
          simp only at h2
          obtain ⟨payload, hs'⟩ := handshakeFetch_ok a u t w sid s s' hh
          subst hs'
          have hwfresh : mapGet s.socketInfo w = none := by
            cases hw : mapGet s.socketInfo w with
            | none => rfl
            | some v => exact absurd (by simp [hw]) hg
          have h2' : mapGet (mapSet s.socketInfo w
              { audience := payload.aud, subject := payload.sub, socketId := sid
                status := Status.pending }) ws = some i2 := h2
          rw [mapGet_set] at h2'
          by_cases hwx : w = ws
          · rw [hwx] at hwfresh
            rw [hwfresh] at h1
            exact absurd h1 (by simp)
          · rw [if_neg hwx] at h2'
            rw [h1] at h2'
            exact Or.inl (by rw [Option.some_inj.mp h2'])
    | message wsm f =>
      cases hi : mapGet s.socketInfo wsm with
      | none =>
        have h2' := h2
        simp only [applyOp, onMessage, hi] at h2'
        rw [h1] at h2'
        exact Or.inl (by rw [Option.some_inj.mp h2'])
      | some info =>
        by_cases hp : info.status = Status.pending
        · have hsock : mapGet (applyOp cfg (Op.message wsm f) s).socketInfo ws =
              mapGet (mapSet s.socketInfo wsm
                { info with status := Status.ready }) ws := by
            cases f with
            | garbage => simp only [applyOp, onMessage, hi, hp, if_pos]; rfl
            | invalid => simp only [applyOp, onMessage, hi, hp, if_pos]; rfl
            | valid msg =>
              simp only [applyOp, onMessage, hi, hp, if_pos]
              rw [(onClientMessage_spec cfg msg wsm info _).1]
              rfl
          rw [hsock] at h2
          rw [mapGet_set] at h2
          by_cases hwx : wsm = ws
          · rw [if_pos hwx] at h2
            have hi1 : i1 = info := by
              rw [hwx] at hi
              rw [h1] at hi
              exact Option.some_inj.mp hi
            refine Or.inr ⟨by rw [hi1]; exact hp, ?_⟩
            rw [← Option.some_inj.mp h2]
          · rw [if_neg hwx] at h2
            rw [h1] at h2
            exact Or.inl (by rw [Option.some_inj.mp h2])
        · have hsock : mapGet (applyOp cfg (Op.message wsm f) s).socketInfo ws =
              mapGet s.socketInfo ws := by
            cases f with
            | garbage => simp only [applyOp, onMessage, hi, hp, if_neg]; rfl
            | invalid => simp only [applyOp, onMessage, hi, hp, if_neg]; rfl
            | valid msg =>
              simp only [applyOp, onMessage, hi, hp, if_neg]
              rw [(onClientMessage_spec cfg msg wsm info _).1]
              rfl
          rw [hsock, h1] at h2
          exact Or.inl (by rw [Option.some_inj.mp h2])
    | sendMsg m to_ notTo =>
      have h2' := h2
      cases hpm : cfg.serverParse m with
      | none =>
        simp only [applyOp, runSend, send, hpm] at h2'
        rw [h1] at h2'
        exact Or.inl (by rw [Option.some_inj.mp h2'])
      | some data =>
        simp only [applyOp, runSend, send, hpm] at h2'
        have := sendLoop_socketInfo_lookup data to_ notTo s.socketInfo s ws i2 h2'
        rw [h1] at this
        exact Or.inl (by rw [Option.some_inj.mp this])
    | close wsc c r wc =>
      have h2' := h2
      simp only [applyOp, onClose, onWebSocketCloseOrError] at h2'
      cases hi : mapGet s.socketInfo wsc <;> rw [hi] at h2' <;>
        simp only at h2' <;> rw [mapGet_delete] at h2' <;>
        by_cases hwx : wsc = ws
      · rw [if_pos hwx] at h2'
        exact absurd h2' (by simp)
      · rw [if_neg hwx] at h2'
        rw [h1] at h2'
        exact Or.inl (by rw [Option.some_inj.mp h2'])
      · rw [if_pos hwx] at h2'
        exact absurd h2' (by simp)
      · rw [if_neg hwx] at h2'
        rw [h1] at h2'
        exact Or.inl (by rw [Option.some_inj.mp h2'])
    | socketError wsc e =>
      have h2' := h2
      simp only [applyOp, onError, onWebSocketCloseOrError] at h2'
      cases hi : mapGet s.socketInfo wsc <;> rw [hi] at h2' <;>
        simp only at h2' <;> rw [mapGet_delete] at h2' <;>
        by_cases hwx : wsc = ws
      · rw [if_pos hwx] at h2'
        exact absurd h2' (by simp)
      · rw [if_neg hwx] at h2'
        rw [h1] at h2'
        exact Or.inl (by rw [Option.some_inj.mp h2'])
      · rw [if_pos hwx] at h2'
        exact absurd h2' (by simp)
      · rw [if_neg hwx] at h2'
        rw [h1] at h2'
        exact Or.inl (by rw [Option.some_inj.mp h2'])
    | hibernate =>
      have h2' := h2
      simp only [applyOp, constructorRehydrate] at h2'
      have hsome := rehydrate_lookup_some s.attachments s.openSockets ws i2 h2'
      have hagx := hagree ws hsome.1
      rw [h1, hsome.2] at hagx
      exact Or.inl (by rw [Option.some_inj.mp hagx])
  · intro a u t w sid s' info hok hlook
    obtain ⟨payload, hs'⟩ := handshakeFetch_ok a u t w sid s s' hok
    subst hs'
    have hlook' : mapGet (mapSet s.socketInfo w
        { audience := payload.aud, subject := payload.sub, socketId := sid
          status := Status.pending }) w = some info := hlook
    rw [mapGet_set, if_pos rfl] at hlook'
    rw [← Option.some_inj.mp hlook']

/-- Witness for C2: the promoting frame on the reachable state s2 moves the
status of the tracked session from pending to ready. -/
theorem status_transitions_monotonic_witness :
    Reachable cfg0 s2 ∧
    (info0.status = ({ info0 with status := Status.ready } :
        SocketSessionInfo).status ∨
      (info0.status = Status.pending ∧
        ({ info0 with status := Status.ready } :
          SocketSessionInfo).status = Status.ready)) :=
  ⟨⟨[opConnect, Op.sendMsg "ping1" none none, Op.sendMsg "ping2" none none], rfl⟩,
   (status_transitions_monotonic cfg0 s2
      ⟨[opConnect, Op.sendMsg "ping1" none none, Op.sendMsg "ping2" none none],
        rfl⟩).1
     (Op.message 0 (InFrame.valid ⟨"noop", "2", "x"⟩)) 0 info0
     { info0 with status := Status.ready } (by decide) (by decide)⟩

end SocketHandler
